import Mathlib

/-!
Shallow embedding of the libintx CUDA API layer
(`src/libintx/cuda/api/api.h` together with the engine header that defines
`parameters_exceed_max_am` and `make_ab_x_kernel`).

Machine memory is modelled by an explicit allocator state (`Heap`) handing out
fresh block ids; buffer contents are modelled as functions `Nat → Option T`,
where `none` stands for bytes that were never written (freshly allocated
storage).  Throwing operations are modelled either by returning the unchanged
object together with the thrown message (for `vector::push_back`, where the
C++ object survives the throw) or by `Except` (for `make_ab_x_kernel`, whose
exception propagates out of a value-returning call).
-/

namespace libintx

/-- Memory policies of the CUDA api, `host_memory_t` and `device_memory_t`:
each provides `allocate` / `free` / `memset`.  Here the policy is the tag that
records which allocator a block (or a shared handle's deleter) belongs to. -/
inductive Policy
| host
| device

/-- Allocator state: `next` is the next fresh block id, `freed` records, in
order, the block ids released through a policy's `free`. -/
structure Heap where
  next : Nat
  freed : List Nat

/-- Allocation (`detail::allocate`): hand out a fresh block id. -/
def Heap.alloc (h : Heap) : Nat × Heap :=
  (h.next, ⟨h.next + 1, h.freed⟩)

/-- Deallocation (`memory_t::free`, as invoked by `unique_ptr::reset`):
releasing a null pointer does nothing, otherwise the block id is recorded as
freed. -/
def Heap.free (h : Heap) : Option Nat → Heap
| none => h
| some p => ⟨h.next, h.freed ++ [p]⟩

/-- The owning buffer `libintx::cuda::vector<T, memory_t>`: logical element
count `size_`, allocated element count `capacity_`, the owned block
(`data_ = none` is the null pointer of the default constructor), and the
contents of the owned block (`mem i = none` means element `i` was never
written). -/
structure vector (T : Type) (M : Policy) where
  size_ : Nat
  capacity_ : Nat
  data_ : Option Nat
  mem : Nat → Option T

/-- Default constructor `vector()`: null storage, size and capacity zero. -/
def vector.new (T : Type) (M : Policy) : vector T M :=
  ⟨0, 0, none, fun _ => none⟩

/-- Growth `vector::reserve(size)`: if the request exceeds the current
capacity, replace the storage with a fresh block of that many elements
(`data_.reset(detail::allocate<T,memory_t>(size))`: allocate first, then the
old block is released; the old contents are NOT copied, the new block starts
unwritten) and set `capacity_`; otherwise do nothing. -/
def vector.reserve {T : Type} {M : Policy} (v : vector T M) (h : Heap) (n : Nat) :
    vector T M × Heap :=
  if v.capacity_ < n then
    (⟨v.size_, n, some (h.alloc).1, fun _ => none⟩, ((h.alloc).2).free v.data_)
  else
    (v, h)

/-- Resizing `vector::resize(size)`: `reserve(size)` then `size_ = size`. -/
def vector.resize {T : Type} {M : Policy} (v : vector T M) (h : Heap) (n : Nat) :
    vector T M × Heap :=
  let r := v.reserve h n
  ({ r.1 with size_ := n }, r.2)

/-- Reset `vector::clear()`: `size_ = 0`, everything else untouched. -/
def vector.clear {T : Type} {M : Policy} (v : vector T M) : vector T M :=
  { v with size_ := 0 }

/-- Append `vector::push_back(v)`: throws `"cuda::vector::capacity exceeded"`
when `size()+1 > capacity_`, leaving the buffer exactly as it was (the throw
precedes any write); otherwise writes at index `size_` and increments the
size.  The thrown message, if any, is returned alongside the buffer. -/
def vector.push_back {T : Type} {M : Policy} (v : vector T M) (x : T) :
    vector T M × Option String :=
  if v.capacity_ < v.size_ + 1 then
    (v, some "cuda::vector::capacity exceeded")
  else
    ({ v with size_ := v.size_ + 1,
              mem := fun i => if i = v.size_ then some x else v.mem i }, none)

/-- Assignment `vector::assign(data, size)`: `resize(size)` then `memcpy`
`size` elements from the source into the storage (elements past `size` keep
whatever the block held). -/
def vector.assign {T : Type} {M : Policy} (v : vector T M) (h : Heap)
    (src : Nat → Option T) (n : Nat) : vector T M × Heap :=
  let r := v.resize h n
  ({ r.1 with mem := fun i => if i < n then src i else r.1.mem i }, r.2)

/-- Exchange `vector::swap(rhs)`: `std::swap` on the three members `size_`,
`capacity_`, `data_` (the owned block id together with its contents).  No
allocator interaction at all: the result pair is built purely from the two
inputs' fields. -/
def vector.swap {T : Type} {M : Policy} (a b : vector T M) :
    vector T M × vector T M :=
  (⟨b.size_, b.capacity_, b.data_, b.mem⟩, ⟨a.size_, a.capacity_, a.data_, a.mem⟩)

/-- Constructor `vector(size_t size)`: default-construct then `resize`. -/
def vector.ofSize (T : Type) (M : Policy) (h : Heap) (n : Nat) : vector T M × Heap :=
  (vector.new T M).resize h n

/-- Constructor `vector(const T *data, size_t size)`: default-construct then
`assign`. -/
def vector.ofData (T : Type) (M : Policy) (h : Heap) (src : Nat → Option T)
    (n : Nat) : vector T M × Heap :=
  (vector.new T M).assign h src n

/-- Host-only brace-list constructor: `resize` to the list length, then
`std::copy` the elements in. -/
def vector.ofList (T : Type) (h : Heap) (l : List T) : vector T Policy.host × Heap :=
  let r := (vector.new T Policy.host).resize h l.length
  ({ r.1 with mem := fun i => if i < l.length then l[i]? else r.1.mem i }, r.2)

/-- Cross-policy copy constructor `vector(const vector<T,M>&)`: a full
`assign` of the source buffer's data and size into a default-constructed
buffer of the target policy `P`. -/
def vector.copyFrom {T : Type} {M : Policy} (P : Policy) (h : Heap)
    (w : vector T M) : vector T P × Heap :=
  vector.ofData T P h w.mem w.size_

/-- Shared reference-counted handle produced by `detail::make_shared`: the
block id and the deleter policy bound at construction time
(`std::shared_ptr<T>(ptr, &memory_t::free)`). -/
structure shared_handle where
  ptr : Nat
  deleter : Policy

/-- Factory `detail::make_shared<T[], memory_t>(n)`: allocate `n` elements
through the policy and wrap the raw pointer in a shared handle whose deleter
is exactly that policy's `free`. -/
def detail.make_shared (M : Policy) (h : Heap) (n : Nat) : shared_handle × Heap :=
  ((⟨(h.alloc).1, M⟩ : shared_handle), (h.alloc).2)

/-- Wrapper `host::make_shared<T>(n)`. -/
def host.make_shared (h : Heap) (n : Nat) : shared_handle × Heap :=
  detail.make_shared Policy.host h n

/-- Wrapper `device::make_shared<T>(n)`. -/
def device.make_shared (h : Heap) (n : Nat) : shared_handle × Heap :=
  detail.make_shared Policy.device h n

/-- Reference-count events on a shared handle: copying a reference or
dropping one. -/
inductive RefEvent
| copy
| drop

/-- Modelled from the spec: the reference counting of the handle returned by
`make_shared` is `std::shared_ptr`'s (outside this repository).  The strong
count starts at 1 for the freshly constructed handle; each copy increments
it, each drop decrements it, and the drop that takes the count from 1 to 0
invokes the stored deleter exactly then.  `freeCalls del c es` lists the
deleter invocations (each tagged with the deleter policy `del`) along the
event list `es`, starting from count `c`. -/
def freeCalls (del : Policy) : Nat → List RefEvent → List Policy
| _, [] => []
| c, RefEvent.copy :: es => freeCalls del (c + 1) es
| c, RefEvent.drop :: es =>
    if c = 1 then del :: freeCalls del (c - 1) es else freeCalls del (c - 1) es

/-- Well-formed complete event list for a handle whose count starts at `c`:
references are only copied or dropped while the count is positive, and at the
end every reference has been dropped (count 0). -/
def wfTrace : Nat → List RefEvent → Bool
| c, [] => c == 0
| c, RefEvent.copy :: es => (c != 0) && wfTrace (c + 1) es
| c, RefEvent.drop :: es => (c != 0) && wfTrace (c - 1) es

/-- Error type `libintx::parameters_exceed_max_am` (a `std::domain_error`):
carries the what-string built by its constructor. -/
structure parameters_exceed_max_am where
  what : String

/-- Constructor `parameters_exceed_max_am(int AB, int X)`.  The compiled
bounds `LMAX`, `XMAX` come from `libintx/config.h`, which is not under `src/`,
so they are explicit parameters here.  The concatenation reproduces the
source's string literals, including the missing space before `exceed`. -/
def parameters_exceed_max_am.make (LMAX XMAX AB X : Nat) : parameters_exceed_max_am :=
  ⟨"Parameters AB=" ++ toString AB ++ " X=" ++ toString X ++
    "exceed LIBINTX_MAX_L=" ++ toString LMAX ++ " LIBINTX_MAX_X=" ++ toString XMAX⟩

/-- Modelled from the spec: `make_array` (from `libintx/array.h`, not under
`src/`) builds the dense 2D table of zero-argument factories, the entry at
`(AB, X)` closing over exactly those index-sequence values and calling `f` on
them.  The kernel type is nullable (`Option K`, with `none` the null kernel),
matching the `if (!kernel)` test in the source. -/
def kernel_table {K : Type} (f : Nat → Nat → Option K) (nABs nXs : Nat) :
    List (List (Unit → Option K)) :=
  (List.range nABs).map fun ab => (List.range nXs).map fun x => fun _ => f ab x

/-- Inner dispatch `make_ab_x_kernel<Kernel>(f, AB, X, index_sequence<ABs...>,
index_sequence<Xs...>)`: build the factory table; if `AB < sizeof...(ABs)` and
`X < sizeof...(Xs)`, return `kernel_table[AB][X]()`, else throw
`parameters_exceed_max_am(AB, X)` (modelled as `Except.error`). -/
def make_ab_x_kernel_seq {K : Type} (LMAX XMAX : Nat) (f : Nat → Nat → Option K)
    (AB X nABs nXs : Nat) : Except parameters_exceed_max_am (Option K) :=
  let t := kernel_table f nABs nXs
  if AB < nABs ∧ X < nXs then
    Except.ok ((t.getD AB []).getD X (fun _ => none) ())
  else
    Except.error (parameters_exceed_max_am.make LMAX XMAX AB X)

/-- Outer dispatch `make_ab_x_kernel<Kernel>(f, AB, X)`: instantiate the index
sequences with `LMAX*2+1` and `XMAX+1` entries, call the inner dispatch, and
throw `parameters_exceed_max_am(AB, X)` if the constructed kernel is null
(the `assert(kernel); if (!kernel) throw ...;` lines, with `NDEBUG` semantics
for the assert). -/
def make_ab_x_kernel {K : Type} (LMAX XMAX : Nat) (f : Nat → Nat → Option K)
    (AB X : Nat) : Except parameters_exceed_max_am (Option K) :=
  match make_ab_x_kernel_seq LMAX XMAX f AB X (LMAX * 2 + 1) (XMAX + 1) with
  | Except.error e => Except.error e
  | Except.ok kernel =>
    match kernel with
    | none => Except.error (parameters_exceed_max_am.make LMAX XMAX AB X)
    | some k => Except.ok (some k)

/-! Helper lemmas about the vector operations. -/

/-- Reserving never changes the size. -/
theorem reserve_size_eq {T : Type} {M : Policy} (v : vector T M) (h : Heap)
    (n : Nat) : (v.reserve h n).1.size_ = v.size_ := by
  unfold vector.reserve
  split <;> rfl

/-- Reserving yields capacity `max capacity_ n`. -/
theorem reserve_capacity_eq {T : Type} {M : Policy} (v : vector T M) (h : Heap)
    (n : Nat) : (v.reserve h n).1.capacity_ = max v.capacity_ n := by
  unfold vector.reserve
  split <;> simp <;> omega

/-- Resizing sets the size. -/
theorem resize_size_eq {T : Type} {M : Policy} (v : vector T M) (h : Heap)
    (n : Nat) : (v.resize h n).1.size_ = n := rfl

/-- Resizing yields capacity `max capacity_ n`. -/
theorem resize_capacity_eq {T : Type} {M : Policy} (v : vector T M) (h : Heap)
    (n : Nat) : (v.resize h n).1.capacity_ = max v.capacity_ n :=
  reserve_capacity_eq v h n

/-- Assigning sets the size to the source length. -/
theorem assign_size_eq {T : Type} {M : Policy} (v : vector T M) (h : Heap)
    (src : Nat → Option T) (n : Nat) : (v.assign h src n).1.size_ = n := rfl

/-- Assigning yields capacity `max capacity_ n`. -/
theorem assign_capacity_eq {T : Type} {M : Policy} (v : vector T M) (h : Heap)
    (src : Nat → Option T) (n : Nat) :
    (v.assign h src n).1.capacity_ = max v.capacity_ n :=
  reserve_capacity_eq v h n

/-- Assigned elements read back as the source elements. -/
theorem assign_mem_lt {T : Type} {M : Policy} (v : vector T M) (h : Heap)
    (src : Nat → Option T) (n : Nat) (i : Nat) (hi : i < n) :
    (v.assign h src n).1.mem i = src i := by
  unfold vector.assign
  simp [hi]

/-- Overfull append throws. -/
theorem push_back_err {T : Type} {M : Policy} (v : vector T M) (x : T)
    (hc : v.capacity_ < v.size_ + 1) :
    v.push_back x = (v, some "cuda::vector::capacity exceeded") := by
  unfold vector.push_back
  rw [if_pos hc]

/-- In-capacity append writes at `size_` and increments the size. -/
theorem push_back_ok {T : Type} {M : Policy} (v : vector T M) (x : T)
    (hc : ¬ v.capacity_ < v.size_ + 1) :
    v.push_back x =
      ({ v with size_ := v.size_ + 1,
                mem := fun i => if i = v.size_ then some x else v.mem i }, none) := by
  unfold vector.push_back
  rw [if_neg hc]

/-- Table lookup in range returns the factory closing over exactly `(AB, X)`. -/
theorem kernel_table_getD {K : Type} (f : Nat → Nat → Option K)
    (nABs nXs AB X : Nat) (hA : AB < nABs) (hX : X < nXs) :
    ((kernel_table f nABs nXs).getD AB []).getD X (fun _ => none) =
      fun _ => f AB X := by
  unfold kernel_table
  rw [List.getD_eq_getElem?_getD, List.getD_eq_getElem?_getD,
    List.getElem?_map, List.getElem?_range hA, Option.map_some', Option.getD_some,
    List.getElem?_map, List.getElem?_range hX, Option.map_some', Option.getD_some]

/-- C1 counterexample: the claim, read over every factory `f`, is false.  With
the compiled bounds `LMAX = 2`, `XMAX = 3`, the pair `AB = 0 ∈ [0, 4]`,
`X = 0 ∈ [0, 3]` is inside the table, yet for a factory whose constructed
kernel is null, `make_ab_x_kernel` does not return `table[AB][X]()` — it
throws `parameters_exceed_max_am` (the `if (!kernel) throw` line), so the
function also throws in a case other than an out-of-range `AB` or `X`. -/
theorem make_ab_x_kernel_null_factory_counterexample :
    make_ab_x_kernel 2 3 (fun _ _ => (none : Option Unit)) 0 0 =
      Except.error (parameters_exceed_max_am.make 2 3 0 0) := rfl

/-- C1 (amended): for every `AB ∈ [0, 2*LMAX]` and `X ∈ [0, XMAX]`, provided
the factory constructs a non-null kernel there, `make_ab_x_kernel f AB X`
returns exactly the kernel constructed by calling `f` with those constants
(the table entry `table[AB][X]()`); for `AB` or `X` outside that range it
throws a `parameters_exceed_max_am` error whose message names the offending
`AB` and `X` and the compiled-in bounds `LMAX` and `XMAX`; the only other
throw, with the same error, is when the factory returns a null kernel for an
in-range pair. -/
theorem make_ab_x_kernel_range_dispatch {K : Type} (LMAX XMAX : Nat)
    (f : Nat → Nat → Option K) (AB X : Nat) :
    (AB ≤ 2 * LMAX → X ≤ XMAX → (f AB X).isSome = true →
      make_ab_x_kernel LMAX XMAX f AB X = Except.ok (f AB X)) ∧
    (¬ (AB ≤ 2 * LMAX ∧ X ≤ XMAX) →
      make_ab_x_kernel LMAX XMAX f AB X =
        Except.error (parameters_exceed_max_am.make LMAX XMAX AB X)) ∧
    (AB ≤ 2 * LMAX → X ≤ XMAX → f AB X = none →
      make_ab_x_kernel LMAX XMAX f AB X =
        Except.error (parameters_exceed_max_am.make LMAX XMAX AB X)) ∧
    (parameters_exceed_max_am.make LMAX XMAX AB X).what =
      "Parameters AB=" ++ toString AB ++ " X=" ++ toString X ++
        "exceed LIBINTX_MAX_L=" ++ toString LMAX ++
        " LIBINTX_MAX_X=" ++ toString XMAX := by
  refine ⟨?_, ?_, ?_, rfl⟩
  · intro hA hX hs
    obtain ⟨k, hk⟩ := Option.isSome_iff_exists.mp hs
    have hA' : AB < LMAX * 2 + 1 := by omega
    have hX' : X < XMAX + 1 := by omega
    unfold make_ab_x_kernel make_ab_x_kernel_seq
    rw [if_pos ⟨hA', hX'⟩, kernel_table_getD f _ _ AB X hA' hX']
    simp [hk]
  · intro hout
    have hcond : ¬ (AB < LMAX * 2 + 1 ∧ X < XMAX + 1) := by omega
    unfold make_ab_x_kernel make_ab_x_kernel_seq
    rw [if_neg hcond]
  · intro hA hX hnone
    have hA' : AB < LMAX * 2 + 1 := by omega
    have hX' : X < XMAX + 1 := by omega
    unfold make_ab_x_kernel make_ab_x_kernel_seq
    rw [if_pos ⟨hA', hX'⟩, kernel_table_getD f _ _ AB X hA' hX']
    simp [hnone]

/-- C1 witness, matching the spec's own scenario (`LMAX = 2`, `XMAX = 3`):
the in-range request `AB = 4, X = 3` constructs the kernel `f 4 3`, and the
out-of-range request `AB = 5, X = 0` throws. -/
theorem make_ab_x_kernel_range_dispatch_witness :
    make_ab_x_kernel 2 3 (fun a x => some (a, x)) 4 3 = Except.ok (some (4, 3)) ∧
    make_ab_x_kernel 2 3 (fun a x => some (a, x)) 5 0 =
      Except.error (parameters_exceed_max_am.make 2 3 5 0) :=
  ⟨(make_ab_x_kernel_range_dispatch 2 3 (fun a x => some (a, x)) 4 3).1
      (by omega) (by omega) rfl,
    (make_ab_x_kernel_range_dispatch 2 3 (fun a x => some (a, x)) 5 0).2.1
      (by omega)⟩

/-- C2: on any buffer satisfying the invariant `size_ ≤ capacity_`,
`push_back` fails with the capacity-exceeded error exactly when
`size_ = capacity_`, and on that failure the buffer is returned unchanged
(same size, capacity, storage block, and stored bytes — no reallocation, no
growth); otherwise it writes the element into `storage[size_]`, increments
the size by one, and touches nothing else. -/
theorem vector_push_back_spec {T : Type} {M : Policy} (v : vector T M) (x : T)
    (hinv : v.size_ ≤ v.capacity_) :
    (v.size_ = v.capacity_ →
      v.push_back x = (v, some "cuda::vector::capacity exceeded")) ∧
    (v.size_ ≠ v.capacity_ →
      (v.push_back x).2 = none ∧
      (v.push_back x).1.size_ = v.size_ + 1 ∧
      (v.push_back x).1.capacity_ = v.capacity_ ∧
      (v.push_back x).1.data_ = v.data_ ∧
      (v.push_back x).1.mem v.size_ = some x ∧
      ∀ i, i ≠ v.size_ → (v.push_back x).1.mem i = v.mem i) := by
  constructor
  · intro he
    exact push_back_err v x (by omega)
  · intro hne
    have hc : ¬ v.capacity_ < v.size_ + 1 := by omega
    rw [push_back_ok v x hc]
    refine ⟨rfl, rfl, rfl, rfl, by simp, ?_⟩
    intro i hi
    simp [hi]

/-- C2 witness: a default-constructed buffer has `size_ = capacity_ = 0`, and
`push_back` on it throws, returning the unchanged buffer. -/
theorem vector_push_back_spec_witness :
    (vector.new Nat Policy.host).push_back 7 =
      (vector.new Nat Policy.host, some "cuda::vector::capacity exceeded") :=
  (vector_push_back_spec (vector.new Nat Policy.host) 7 (by decide)).1 rfl


/-- Sized construction sets the size. -/
theorem ofSize_size_eq (T : Type) (M : Policy) (h : Heap) (n : Nat) :
    (vector.ofSize T M h n).1.size_ = n := rfl

/-- Sized construction sets the capacity. -/
theorem ofSize_capacity_eq (T : Type) (M : Policy) (h : Heap) (n : Nat) :
    (vector.ofSize T M h n).1.capacity_ = n := by
  unfold vector.ofSize
  rw [resize_capacity_eq]
  simp [vector.new]

/-- Data construction sets the size. -/
theorem ofData_size_eq (T : Type) (M : Policy) (h : Heap) (src : Nat → Option T)
    (n : Nat) : (vector.ofData T M h src n).1.size_ = n := rfl

/-- Data construction sets the capacity. -/
theorem ofData_capacity_eq (T : Type) (M : Policy) (h : Heap)
    (src : Nat → Option T) (n : Nat) :
    (vector.ofData T M h src n).1.capacity_ = n := by
  unfold vector.ofData
  rw [assign_capacity_eq]
  simp [vector.new]

/-- List construction sets the size. -/
theorem ofList_size_eq (T : Type) (h : Heap) (l : List T) :
    (vector.ofList T h l).1.size_ = l.length := rfl

/-- List construction sets the capacity. -/
theorem ofList_capacity_eq (T : Type) (h : Heap) (l : List T) :
    (vector.ofList T h l).1.capacity_ = l.length := by
  unfold vector.ofList
  show ((vector.new T Policy.host).resize h l.length).1.capacity_ = l.length
  rw [resize_capacity_eq]
  simp [vector.new]

/-- Cross-policy copy construction sets the size. -/
theorem copyFrom_size_eq {T : Type} {M : Policy} (P : Policy) (h : Heap)
    (w : vector T M) : (vector.copyFrom P h w).1.size_ = w.size_ := rfl

/-- Cross-policy copy construction sets the capacity. -/
theorem copyFrom_capacity_eq {T : Type} {M : Policy} (P : Policy) (h : Heap)
    (w : vector T M) : (vector.copyFrom P h w).1.capacity_ = w.size_ :=
  ofData_capacity_eq T P h w.mem w.size_

/-- C3: every owning-buffer operation — the constructors (default, sized,
from-data, brace-list, cross-policy copy), `reserve`, `resize`, `clear`,
`assign`, `push_back`, `swap` — preserves the invariant `size_ ≤ capacity_`;
moreover none of these operations except `swap` ever decreases the
capacity. -/
theorem vector_size_le_capacity_invariant {T : Type} {M : Policy}
    (v b : vector T M) (h h2 : Heap) (n : Nat) (x : T) (src : Nat → Option T)
    (l : List T) (hv : v.size_ ≤ v.capacity_) (hb : b.size_ ≤ b.capacity_) :
    ((vector.new T M).size_ ≤ (vector.new T M).capacity_) ∧
    ((vector.ofSize T M h n).1.size_ ≤ (vector.ofSize T M h n).1.capacity_) ∧
    ((vector.ofData T M h src n).1.size_ ≤ (vector.ofData T M h src n).1.capacity_) ∧
    ((vector.ofList T h2 l).1.size_ ≤ (vector.ofList T h2 l).1.capacity_) ∧
    ((vector.copyFrom M h b).1.size_ ≤ (vector.copyFrom M h b).1.capacity_) ∧
    ((v.reserve h n).1.size_ ≤ (v.reserve h n).1.capacity_ ∧
      v.capacity_ ≤ (v.reserve h n).1.capacity_) ∧
    ((v.resize h n).1.size_ ≤ (v.resize h n).1.capacity_ ∧
      v.capacity_ ≤ (v.resize h n).1.capacity_) ∧
    (v.clear.size_ ≤ v.clear.capacity_ ∧ v.capacity_ ≤ v.clear.capacity_) ∧
    ((v.assign h src n).1.size_ ≤ (v.assign h src n).1.capacity_ ∧
      v.capacity_ ≤ (v.assign h src n).1.capacity_) ∧
    ((v.push_back x).1.size_ ≤ (v.push_back x).1.capacity_ ∧
      v.capacity_ ≤ (v.push_back x).1.capacity_) ∧
    ((v.swap b).1.size_ ≤ (v.swap b).1.capacity_ ∧
      (v.swap b).2.size_ ≤ (v.swap b).2.capacity_) := by
  refine ⟨Nat.le_refl 0, ?_, ?_, ?_, ?_, ?_, ?_, ⟨Nat.zero_le _, Nat.le_refl _⟩,
    ?_, ?_, ⟨hb, hv⟩⟩
  · rw [ofSize_size_eq, ofSize_capacity_eq]
  · rw [ofData_size_eq, ofData_capacity_eq]
  · rw [ofList_size_eq, ofList_capacity_eq]
  · rw [copyFrom_size_eq, copyFrom_capacity_eq]
  · rw [reserve_size_eq, reserve_capacity_eq]
    omega
  · rw [resize_size_eq, resize_capacity_eq]
    omega
  · rw [assign_size_eq, assign_capacity_eq]
    omega
  · by_cases hc : v.capacity_ < v.size_ + 1
    · rw [push_back_err v x hc]
      exact ⟨hv, Nat.le_refl _⟩
    · rw [push_back_ok v x hc]
      exact ⟨by simpa using Nat.le_of_not_lt hc, Nat.le_refl _⟩

/-- C3 witness: the invariant conclusions at a concrete buffer, heap and
arguments; shown here for the `reserve` component. -/
theorem vector_size_le_capacity_invariant_witness :
    ((vector.new Nat Policy.host).reserve ⟨0, []⟩ 4).1.size_ ≤
      ((vector.new Nat Policy.host).reserve ⟨0, []⟩ 4).1.capacity_ :=
  (vector_size_le_capacity_invariant (vector.new Nat Policy.host)
    (vector.new Nat Policy.host) ⟨0, []⟩ ⟨0, []⟩ 4 7 (fun _ => none) []
    (by decide) (by decide)).2.2.2.2.2.1.1

/-- C4: `reserve(n)` with `n ≤ capacity_` changes nothing (it never shrinks,
neither the buffer nor the allocator state); with `n > capacity_` it
allocates a fresh block of `n` elements through the policy's allocator (the
next fresh block id, distinct from the old block under the allocator
discipline that live blocks have ids below `next`), does not copy the old
contents (the new block reads back wholly unwritten), releases the old
block, and sets `capacity_ = n`.  Consequently `reserve(n1)` followed by
`reserve(n2)` with `n1 ≤ n2` yields `capacity_ ≥ n2`. -/
theorem vector_reserve_spec {T : Type} {M : Policy} (v : vector T M) (h : Heap)
    (n : Nat) :
    (n ≤ v.capacity_ → v.reserve h n = (v, h)) ∧
    (v.capacity_ < n →
      (v.reserve h n).1.capacity_ = n ∧
      (v.reserve h n).1.size_ = v.size_ ∧
      (v.reserve h n).1.data_ = some h.next ∧
      (v.reserve h n).1.mem = (fun _ => none) ∧
      ((v.reserve h n).2).freed = h.freed ++ v.data_.toList ∧
      ∀ p, v.data_ = some p → p < h.next → (v.reserve h n).1.data_ ≠ some p) ∧
    (∀ n1 n2 : Nat, n1 ≤ n2 →
      n2 ≤ (((v.reserve h n1).1).reserve ((v.reserve h n1).2) n2).1.capacity_) := by
  refine ⟨?_, ?_, ?_⟩
  · intro hle
    unfold vector.reserve
    rw [if_neg (by omega)]
  · intro hlt
    unfold vector.reserve
    rw [if_pos hlt]
    refine ⟨rfl, rfl, rfl, rfl, ?_, ?_⟩
    · cases hd : v.data_ <;> simp [Heap.alloc, Heap.free]
    · intro p hp hlt2 heq
      rw [Heap.alloc] at heq
      simp only [Option.some.injEq] at heq
      omega
  · intro n1 n2 hle
    rw [reserve_capacity_eq, reserve_capacity_eq]
    omega

/-- C4 witness: growing a fresh buffer to capacity 3 from the empty allocator
sets the capacity to 3. -/
theorem vector_reserve_spec_witness :
    ((vector.new Nat Policy.host).reserve ⟨0, []⟩ 3).1.capacity_ = 3 :=
  ((vector_reserve_spec (vector.new Nat Policy.host) ⟨0, []⟩ 3).2.1 (by decide)).1

/-- C5: for every `n` and every owning buffer, `resize(n)` establishes
`size_ = n` and `capacity_ ≥ n`. -/
theorem vector_resize_spec {T : Type} {M : Policy} (v : vector T M) (h : Heap)
    (n : Nat) :
    (v.resize h n).1.size_ = n ∧ n ≤ (v.resize h n).1.capacity_ := by
  refine ⟨resize_size_eq v h n, ?_⟩
  rw [resize_capacity_eq]
  omega

/-- C5 witness: resizing a fresh buffer to 6 elements gives size 6. -/
theorem vector_resize_spec_witness :
    ((vector.new Nat Policy.host).resize ⟨0, []⟩ 6).1.size_ = 6 :=
  (vector_resize_spec (vector.new Nat Policy.host) ⟨0, []⟩ 6).1

/-- C6: after `assign(src, n)` the buffer has size `n` and reading its
`size()` elements reproduces the `n` source elements; the policies `M` and
`P` are arbitrary, so this covers same-policy and cross-policy assignment,
and the cross-policy copy constructor — a full assign of the source buffer's
data and size — reproduces the source buffer's elements the same way. -/
theorem vector_assign_roundtrip {T : Type} {M P : Policy} (v : vector T M)
    (w : vector T M) (h h2 : Heap) (src : Nat → Option T) (n : Nat) :
    ((v.assign h src n).1.size_ = n ∧
      ∀ i, i < n → (v.assign h src n).1.mem i = src i) ∧
    ((vector.copyFrom P h2 w).1.size_ = w.size_ ∧
      ∀ i, i < w.size_ → (vector.copyFrom P h2 w).1.mem i = w.mem i) := by
  refine ⟨⟨assign_size_eq v h src n, fun i hi => assign_mem_lt v h src n i hi⟩,
    ⟨copyFrom_size_eq P h2 w, fun i hi => ?_⟩⟩
  exact assign_mem_lt (vector.new T P) h2 w.mem w.size_ i hi

/-- C6 witness: assigning three elements to a fresh host buffer reads back
the source element at index 1. -/
theorem vector_assign_roundtrip_witness :
    ((vector.new Nat Policy.host).assign ⟨0, []⟩ (fun i => some (i + 10)) 3).1.mem 1 =
      some 11 :=
  (@vector_assign_roundtrip Nat Policy.host Policy.device
    (vector.new Nat Policy.host) (vector.new Nat Policy.host) ⟨0, []⟩ ⟨0, []⟩
    (fun i => some (i + 10)) 3).1.2 1 (by decide)

/-- C7: `swap` exchanges exactly the two buffers' sizes, capacities and
storage (block id and contents) — it takes no allocator state, so no
reallocation can occur — and it is its own inverse: swapping twice restores
both buffers to their original state. -/
theorem vector_swap_involutive {T : Type} {M : Policy} (a b : vector T M) :
    (a.swap b).1.size_ = b.size_ ∧ (a.swap b).1.capacity_ = b.capacity_ ∧
    (a.swap b).1.data_ = b.data_ ∧ (a.swap b).1.mem = b.mem ∧
    (a.swap b).2.size_ = a.size_ ∧ (a.swap b).2.capacity_ = a.capacity_ ∧
    (a.swap b).2.data_ = a.data_ ∧ (a.swap b).2.mem = a.mem ∧
    ((a.swap b).1.swap ((a.swap b).2)) = (a, b) :=
  ⟨rfl, rfl, rfl, rfl, rfl, rfl, rfl, rfl, rfl⟩

/-- C7 witness: swapping two concrete buffers twice restores both. -/
theorem vector_swap_involutive_witness :
    (((⟨1, 2, some 0, fun _ => none⟩ : vector Nat Policy.host).swap
        ⟨3, 4, some 1, fun _ => some 9⟩).1.swap
      ((⟨1, 2, some 0, fun _ => none⟩ : vector Nat Policy.host).swap
        ⟨3, 4, some 1, fun _ => some 9⟩).2) =
      (⟨1, 2, some 0, fun _ => none⟩, ⟨3, 4, some 1, fun _ => some 9⟩) :=
  (vector_swap_involutive ⟨1, 2, some 0, fun _ => none⟩
    ⟨3, 4, some 1, fun _ => some 9⟩).2.2.2.2.2.2.2.2

/-- A count of zero in a well-formed trace means the trace is over: no
further deleter call can occur. -/
theorem freeCalls_of_count_zero (del : Policy) (es : List RefEvent)
    (hwf : wfTrace 0 es = true) : freeCalls del 0 es = [] := by
  cases es with
  | nil => rfl
  | cons e es => cases e <;> simp [wfTrace] at hwf

/-- Along any well-formed complete trace starting from a positive count, the
deleter is invoked exactly once. -/
theorem freeCalls_once (del : Policy) (es : List RefEvent) :
    ∀ c, 0 < c → wfTrace c es = true → freeCalls del c es = [del] := by
  induction es with
  | nil =>
    intro c hc hwf
    simp [wfTrace] at hwf
    omega
  | cons e es ih =>
    intro c hc hwf
    cases e with
    | copy =>
      simp [wfTrace] at hwf
      show freeCalls del (c + 1) es = [del]
      exact ih (c + 1) (by omega) hwf.2
    | drop =>
      simp [wfTrace] at hwf
      by_cases h1 : c = 1
      · subst h1
        show (if 1 = 1 then del :: freeCalls del 0 es else _) = [del]
        rw [if_pos rfl, freeCalls_of_count_zero del es hwf.2]
      · show (if c = 1 then _ else freeCalls del (c - 1) es) = [del]
        rw [if_neg h1]
        exact ih (c - 1) (by omega) hwf.2

/-- C8: for a shared array produced by `make_shared` with policy `M`, however
many references are copied and in whatever order they are dropped (any
well-formed complete trace starting from the single fresh reference), the
destruction of the last reference triggers exactly one free call, and that
call goes through the deleter bound at construction — the free primitive of
the same policy `M` that performed the allocation. -/
theorem make_shared_exactly_once_free (M : Policy) (h : Heap) (n : Nat)
    (es : List RefEvent) (hwf : wfTrace 1 es = true) :
    freeCalls ((detail.make_shared M h n).1.deleter) 1 es = [M] :=
  freeCalls_once M es 1 (by omega) hwf

/-- C8 witness: two references (one copy), dropped in some order, produce
exactly one free call through the allocating (host) policy. -/
theorem make_shared_exactly_once_free_witness :
    freeCalls ((detail.make_shared Policy.host ⟨0, []⟩ 5).1.deleter) 1
      [RefEvent.copy, RefEvent.drop, RefEvent.drop] = [Policy.host] :=
  make_shared_exactly_once_free Policy.host ⟨0, []⟩ 5
    [RefEvent.copy, RefEvent.drop, RefEvent.drop] rfl

/-- C9: `clear()` sets the size to 0 and leaves the capacity, the storage
block, and the stored bytes unchanged; it takes no allocator state, so
nothing is deallocated and nothing is filled. -/
theorem vector_clear_frame {T : Type} {M : Policy} (v : vector T M) :
    v.clear.size_ = 0 ∧ v.clear.capacity_ = v.capacity_ ∧
    v.clear.data_ = v.data_ ∧ v.clear.mem = v.mem :=
  ⟨rfl, rfl, rfl, rfl⟩

/-- C9 witness: clearing a concrete buffer zeroes the size and keeps
capacity, block and contents. -/
theorem vector_clear_frame_witness :
    ((⟨2, 4, some 1, fun _ => some 3⟩ : vector Nat Policy.device).clear).size_ = 0 :=
  (vector_clear_frame (⟨2, 4, some 1, fun _ => some 3⟩ : vector Nat Policy.device)).1

/-- C10: a default-constructed owning buffer has size 0, capacity 0 and null
storage, so the first `push_back` on it — before any `reserve` or `resize` —
throws the capacity-exceeded error and leaves the buffer unchanged. -/
theorem vector_default_push_back_fails (T : Type) (M : Policy) (x : T) :
    (vector.new T M).size_ = 0 ∧ (vector.new T M).capacity_ = 0 ∧
    (vector.new T M).data_ = none ∧
    (vector.new T M).push_back x =
      (vector.new T M, some "cuda::vector::capacity exceeded") :=
  ⟨rfl, rfl, rfl, push_back_err (vector.new T M) x (Nat.lt_succ_self 0)⟩

/-- C10 witness: the first `push_back` on a fresh device buffer throws. -/
theorem vector_default_push_back_fails_witness :
    (vector.new Nat Policy.device).push_back 0 =
      (vector.new Nat Policy.device, some "cuda::vector::capacity exceeded") :=
  (vector_default_push_back_fails Nat Policy.device 0).2.2.2

end libintx
